import Mathlib

/-!
Verification of the four-in-a-row backend against its specification.

The Go sources are shallowly embedded: the pure board engine
(package game: NewGame, MakeMove, CheckWin, IsBoardFull, GetValidMoves,
Clone), the search agent (package bot: Bot.GetMove, minimax, evaluate),
and the hub/matchmaking bookkeeping that the claims mention
(MatchMaker.startGame, Server.handleReconnect, Server.handleMove,
Server.endGame).  Go struct mutation is modelled by explicit state
passing: a method that mutates *Game becomes a function returning the
updated Game.  Go slices and maps are modelled by lists and association
lists; rand.Intn n is modelled by an arbitrary natural number reduced
mod n (so every theorem quantifies over all possible random draws).
-/

namespace FourInARow

/-! ## Board engine (package game) -/

/-- Constants from the game package. -/
def Rows : Nat := 6

def Columns : Nat := 7

/-- Cell values are Go ints: 0 = empty, 1 = player 1, 2 = player 2. -/
def EmptyCell : Int := 0

def Player1 : Int := 1

def Player2 : Int := 2

/-- Board is a 6 x 7 grid of cell values (Go: type Board [Rows][Columns]int). -/
abbrev Board : Type := Fin 6 → Fin 7 → Int

/-- Writing one cell of the board (Go: g.Board[row][column] = v). -/
def setCell (b : Board) (r : Fin 6) (c : Fin 7) (v : Int) : Board :=
  fun r2 c2 => if r2 = r ∧ c2 = c then v else b r2 c2

/-- One recorded move (Go: type Move, fields Player, Column, Row). -/
structure Move where
  Player : Int
  Column : Int
  Row : Int

/-- The Game struct, with the Moves slice inlined as a list value.
(For the deep-copy claim a second, store-based view of the Moves slice
is introduced further below.) -/
structure Game where
  ID : String
  Board : Board
  CurrentPlayer : Int
  Player1ID : String
  Player2ID : String
  Player1Name : String
  Player2Name : String
  IsBot : Bool
  Winner : Int
  IsOver : Bool
  IsDraw : Bool
  Moves : List Move
  StartTime : Int
  EndTime : Int

/-- Go: game.NewGame. -/
def NewGame (id p1ID p1Name p2ID p2Name : String) (isBot : Bool) : Game :=
  { ID := id
    Board := fun _ _ => EmptyCell
    CurrentPlayer := Player1
    Player1ID := p1ID
    Player2ID := p2ID
    Player1Name := p1Name
    Player2Name := p2Name
    IsBot := isBot
    Winner := 0
    IsOver := false
    IsDraw := false
    Moves := []
    StartTime := 0
    EndTime := 0 }

/-- Go scans a maximal run inside CheckWin: count is incremented on a
matching cell and the function returns as soon as count reaches 4,
otherwise count resets to 0. -/
def runHits4 (player : Int) : List Int → Nat → Bool
  | [], _ => false
  | v :: rest, count =>
    if v = player then
      if count + 1 ≥ 4 then true else runHits4 player rest (count + 1)
    else
      runHits4 player rest 0

/-- The row of cells through (row, ·) (Go: first loop of CheckWin). -/
def horizCells (b : Board) (row : Fin 6) : List Int :=
  (List.finRange 7).map (fun c => b row c)

/-- The column of cells through (·, col) (Go: second loop of CheckWin). -/
def vertCells (b : Board) (col : Fin 7) : List Int :=
  (List.finRange 6).map (fun r => b r col)

/-- The down-right diagonal through (row, col): Go walks to the top-left
end of the diagonal and then scans down-right while inside the board. -/
def diagCellsDR (b : Board) (row : Fin 6) (col : Fin 7) : List Int :=
  (List.range 6).filterMap (fun i =>
    if h : row.val - min row.val col.val + i < 6 ∧ col.val - min row.val col.val + i < 7 then
      some (b ⟨row.val - min row.val col.val + i, h.1⟩ ⟨col.val - min row.val col.val + i, h.2⟩)
    else none)

/-- The down-left diagonal through (row, col): Go walks to the top-right
end of the diagonal and then scans down-left while inside the board. -/
def diagCellsDL (b : Board) (row : Fin 6) (col : Fin 7) : List Int :=
  (List.range 7).filterMap (fun i =>
    if h : row.val - min row.val (6 - col.val) + i < 6 ∧
        i ≤ col.val + min row.val (6 - col.val) ∧
        col.val + min row.val (6 - col.val) - i < 7 then
      some (b ⟨row.val - min row.val (6 - col.val) + i, h.1⟩
              ⟨col.val + min row.val (6 - col.val) - i, h.2.2⟩)
    else none)

/-- Go: Game.CheckWin — scans the four line directions through the just
played cell for a run of at least 4 cells of that cell's value. -/
def CheckWin (g : Game) (row : Fin 6) (col : Fin 7) : Bool :=
  runHits4 (g.Board row col) (horizCells g.Board row) 0 ||
  runHits4 (g.Board row col) (vertCells g.Board col) 0 ||
  runHits4 (g.Board row col) (diagCellsDR g.Board row col) 0 ||
  runHits4 (g.Board row col) (diagCellsDL g.Board row col) 0

/-- Go: Game.IsBoardFull — true iff no cell of the top row is empty. -/
def IsBoardFull (g : Game) : Bool :=
  (List.finRange 7).all (fun c => !(g.Board 0 c == EmptyCell))

/-- Go: Game.GetValidMoves — the columns whose top cell is empty, in
ascending column order. -/
def GetValidMoves (g : Game) : List Int :=
  ((List.finRange 7).filter (fun c => g.Board 0 c == EmptyCell)).map (fun c => (c.val : Int))

/-- The rows scanned by MakeMove when looking for the landing cell,
bottom row first (Go: for r := Rows - 1; r >= 0; r--). -/
def rowsBottomUp : List (Fin 6) := (List.finRange 6).reverse

/-- The scan itself: the first row in the given order whose cell in
column c is empty. -/
def findRowAux (b : Board) (c : Fin 7) : List (Fin 6) → Option (Fin 6)
  | [] => none
  | r :: rest => if b r c = EmptyCell then some r else findRowAux b c rest

/-- The landing row for a disc dropped in column c: the lowest empty
cell of that column, none if the column is full. -/
def findRow (b : Board) (c : Fin 7) : Option (Fin 6) := findRowAux b c rowsBottomUp

/-- The two in-place updates MakeMove performs before evaluating the
terminal state: writing the mover's disc and appending the move record
(Go lines g.Board[row][column] = g.CurrentPlayer and
g.Moves = append(g.Moves, move)). -/
def placeDisc (g : Game) (row : Fin 6) (c : Fin 7) (column : Int) : Game :=
  { g with
    Board := setCell g.Board row c g.CurrentPlayer
    Moves := g.Moves ++ [{ Player := g.CurrentPlayer, Column := column, Row := (row.val : Int) }] }

/-- The body of MakeMove once the column index has been bounds-checked. -/
def MakeMoveIn (g : Game) (column : Int) (c : Fin 7) : Game × Int × Bool :=
  match findRow g.Board c with
  | none => (g, -1, false)
  | some row =>
    if CheckWin (placeDisc g row c column) row c then
      ({ placeDisc g row c column with Winner := g.CurrentPlayer, IsOver := true },
       (row.val : Int), true)
    else if IsBoardFull (placeDisc g row c column) then
      ({ placeDisc g row c column with IsDraw := true, IsOver := true },
       (row.val : Int), true)
    else
      ({ placeDisc g row c column with
          CurrentPlayer := if g.CurrentPlayer = Player1 then Player2 else Player1 },
       (row.val : Int), true)

/-- Go: Game.MakeMove — returns the updated game together with the
landing row and the ok flag; the original game is returned unchanged on
failure, mirroring the early returns before any mutation. -/
def MakeMove (g : Game) (column : Int) : Game × Int × Bool :=
  if h : column < 0 ∨ 7 ≤ column then (g, -1, false)
  else MakeMoveIn g column ⟨column.toNat, by omega⟩

/-- Go: Game.Clone — a field-by-field copy; the board array and the
Moves slice are copied element by element. -/
def Clone (g : Game) : Game :=
  { ID := g.ID
    Board := fun r c => g.Board r c
    CurrentPlayer := g.CurrentPlayer
    Player1ID := g.Player1ID
    Player2ID := g.Player2ID
    Player1Name := g.Player1Name
    Player2Name := g.Player2Name
    IsBot := g.IsBot
    Winner := g.Winner
    IsOver := g.IsOver
    IsDraw := g.IsDraw
    Moves := g.Moves
    StartTime := g.StartTime
    EndTime := g.EndTime }

/-- Applying a sequence of MakeMove calls, keeping the state after each
call whether or not it succeeded. -/
def playMoves (g : Game) (cols : List Int) : Game :=
  cols.foldl (fun gm c => (MakeMove gm c).1) g

/-! ## Structural lemmas about the landing-row scan -/

lemma findRowAux_eq_none (b : Board) (c : Fin 7) :
    ∀ l : List (Fin 6), findRowAux b c l = none ↔ ∀ r ∈ l, b r c ≠ EmptyCell := by
  intro l
  induction l with
  | nil => simp [findRowAux]
  | cons a rest ih =>
    by_cases h : b a c = EmptyCell
    · simp [findRowAux, h]
    · simp [findRowAux, h, ih]

lemma findRow_none_iff (b : Board) (c : Fin 7) :
    findRow b c = none ↔ ∀ r : Fin 6, b r c ≠ EmptyCell := by
  rw [findRow, findRowAux_eq_none]
  simp [rowsBottomUp]

lemma findRowAux_some_spec (b : Board) (c : Fin 7) :
    ∀ l : List (Fin 6), List.Pairwise (fun x y => y.val < x.val) l →
      ∀ r : Fin 6, findRowAux b c l = some r →
        b r c = EmptyCell ∧ ∀ x ∈ l, r.val < x.val → b x c ≠ EmptyCell := by
  intro l
  induction l with
  | nil => intro _ r h; simp [findRowAux] at h
  | cons a rest ih =>
    intro hpw r h
    rw [List.pairwise_cons] at hpw
    by_cases ha : b a c = EmptyCell
    · rw [findRowAux, if_pos ha] at h
      obtain rfl : a = r := by injection h
      refine ⟨ha, ?_⟩
      intro x hx hlt
      rcases List.mem_cons.mp hx with rfl | hx
      · omega
      · have := hpw.1 x hx
        omega
    · rw [findRowAux, if_neg ha] at h
      obtain ⟨h1, h2⟩ := ih hpw.2 r h
      refine ⟨h1, ?_⟩
      intro x hx hlt
      rcases List.mem_cons.mp hx with rfl | hx
      · exact ha
      · exact h2 x hx hlt

lemma rowsBottomUp_pairwise :
    List.Pairwise (fun x y : Fin 6 => y.val < x.val) rowsBottomUp := by decide

lemma mem_rowsBottomUp (r : Fin 6) : r ∈ rowsBottomUp := by
  simp [rowsBottomUp]

/-- The landing row found by MakeMove is the lowest empty cell of the
column: it is empty and every row strictly below it is occupied. -/
lemma findRow_some_spec (b : Board) (c : Fin 7) (r : Fin 6)
    (h : findRow b c = some r) :
    b r c = EmptyCell ∧ ∀ x : Fin 6, r.val < x.val → b x c ≠ EmptyCell := by
  obtain ⟨h1, h2⟩ := findRowAux_some_spec b c rowsBottomUp rowsBottomUp_pairwise r h
  exact ⟨h1, fun x hlt => h2 x (mem_rowsBottomUp x) hlt⟩

/-! ## Case analysis of MakeMove -/

/-- A failing MakeMove returns the game unchanged together with row -1. -/
lemma makeMove_fail_eq (g : Game) (col : Int) :
    (MakeMove g col).2.2 = false →
      (MakeMove g col).1 = g ∧ (MakeMove g col).2.1 = -1 := by
  unfold MakeMove
  split
  · intro _; exact ⟨rfl, rfl⟩
  · unfold MakeMoveIn
    split
    · intro _; exact ⟨rfl, rfl⟩
    · split
      · intro h; simp at h
      · split
        · intro h; simp at h
        · intro h; simp at h

/-- MakeMove fails exactly when the column is out of range or the scan
for an empty cell in the column comes up empty. -/
lemma makeMove_fail_char (g : Game) (col : Int) :
    (MakeMove g col).2.2 = false ↔
      (col < 0 ∨ 7 ≤ col) ∨
        ∃ h7 : col.toNat < 7, findRow g.Board ⟨col.toNat, h7⟩ = none := by
  unfold MakeMove
  split
  next hcond => simp [hcond]
  next hcond =>
    unfold MakeMoveIn
    split
    next hfr =>
      constructor
      · intro _
        exact Or.inr ⟨by omega, hfr⟩
      · intro _; rfl
    next row hfr =>
      constructor
      · intro h
        exfalso
        revert h
        split
        · simp
        · split <;> simp
      · rintro (h | ⟨h7, hnone⟩)
        · exact absurd h hcond
        · rw [hfr] at hnone
          cases hnone

/-- A successful MakeMove: the column was in range, the scan found a
landing row, the board gains exactly that disc, the move record is
appended, and the mover either keeps the turn with the game now over
(win or draw branch) or hands the turn over with the over-flag
untouched (normal branch). -/
lemma makeMove_ok_spec (g : Game) (col : Int) :
    (MakeMove g col).2.2 = true →
    ∃ (h7 : col.toNat < 7) (row : Fin 6),
      0 ≤ col ∧ col < 7 ∧
      findRow g.Board ⟨col.toNat, h7⟩ = some row ∧
      (MakeMove g col).2.1 = (row.val : Int) ∧
      (MakeMove g col).1.Board = setCell g.Board row ⟨col.toNat, h7⟩ g.CurrentPlayer ∧
      (MakeMove g col).1.Moves =
        g.Moves ++ [{ Player := g.CurrentPlayer, Column := col, Row := (row.val : Int) }] ∧
      (((MakeMove g col).1.CurrentPlayer = g.CurrentPlayer ∧
          (MakeMove g col).1.IsOver = true) ∨
       ((MakeMove g col).1.CurrentPlayer =
          (if g.CurrentPlayer = Player1 then Player2 else Player1) ∧
          (MakeMove g col).1.IsOver = g.IsOver)) := by
  unfold MakeMove
  split
  next hcond => intro h; simp at h
  next hcond =>
    unfold MakeMoveIn
    split
    next hfr => intro h; simp at h
    next row hfr =>
      split
      · intro _
        exact ⟨by omega, row, by omega, by omega, hfr, rfl, rfl, rfl, Or.inl ⟨rfl, rfl⟩⟩
      · split
        · intro _
          exact ⟨by omega, row, by omega, by omega, hfr, rfl, rfl, rfl, Or.inl ⟨rfl, rfl⟩⟩
        · intro _
          exact ⟨by omega, row, by omega, by omega, hfr, rfl, rfl, rfl, Or.inr ⟨rfl, rfl⟩⟩

/-! ## The no-floating-disc invariant -/

/-- Gravity invariant: below any occupied cell every cell of the same
column is occupied (rows are indexed 0 at the top). -/
def NoFloating (b : Board) : Prop :=
  ∀ (c : Fin 7) (r1 r2 : Fin 6), r1.val ≤ r2.val →
    b r1 c ≠ EmptyCell → b r2 c ≠ EmptyCell

instance (b : Board) : Decidable (NoFloating b) := by
  unfold NoFloating; infer_instance

lemma noFloating_setCell (b : Board) (row : Fin 6) (c : Fin 7) (v : Int)
    (hinv : NoFloating b) (hv : v ≠ EmptyCell)
    (hbelow : ∀ x : Fin 6, row.val < x.val → b x c ≠ EmptyCell) :
    NoFloating (setCell b row c v) := by
  intro c1 r1 r2 hle h1
  unfold setCell at h1 ⊢
  by_cases h2 : r2 = row ∧ c1 = c
  · rw [if_pos h2]; exact hv
  · rw [if_neg h2]
    by_cases h3 : r1 = row ∧ c1 = c
    · obtain ⟨rfl, rfl⟩ := h3
      have hne : r2 ≠ r1 := fun he => h2 ⟨he, rfl⟩
      have hlt : r1.val < r2.val := by
        rcases Nat.lt_or_ge r1.val r2.val with h | h
        · exact h
        · exact absurd (Fin.ext (Nat.le_antisymm hle h)).symm hne
      exact hbelow r2 hlt
    · rw [if_neg h3] at h1
      exact hinv c1 r1 r2 hle h1

/-- MakeMove never overwrites an occupied cell. -/
lemma makeMove_keeps_filled (g : Game) (col : Int) (r : Fin 6) (c : Fin 7)
    (h1 : g.Board r c ≠ EmptyCell) :
    (MakeMove g col).1.Board r c = g.Board r c := by
  cases hok : (MakeMove g col).2.2 with
  | false => rw [(makeMove_fail_eq g col hok).1]
  | true =>
    obtain ⟨h7, row, _, _, hfind, _, hboard, _, _⟩ := makeMove_ok_spec g col hok
    rw [hboard]
    unfold setCell
    rw [if_neg]
    intro hcontra
    obtain ⟨rfl, rfl⟩ := hcontra
    exact h1 (findRow_some_spec _ _ _ hfind).1

/-- The states reachable from NewGame by successful MakeMove calls. -/
inductive Reachable : Game → Prop where
  | base (id p1ID p1Name p2ID p2Name : String) (isBot : Bool) :
      Reachable (NewGame id p1ID p1Name p2ID p2Name isBot)
  | step (g : Game) (col : Int) (hg : Reachable g)
      (hok : (MakeMove g col).2.2 = true) :
      Reachable (MakeMove g col).1

/-- Every reachable state satisfies the gravity invariant and keeps the
current mover in {Player1, Player2}. -/
lemma reachable_invariant (g : Game) (h : Reachable g) :
    NoFloating g.Board ∧ (g.CurrentPlayer = Player1 ∨ g.CurrentPlayer = Player2) := by
  induction h with
  | base id p1ID p1Name p2ID p2Name isBot =>
    refine ⟨?_, Or.inl rfl⟩
    intro c r1 r2 _ h1
    exact absurd rfl h1
  | step g col hg hok ih =>
    obtain ⟨h7, row, _, _, hfind, _, hboard, _, hplayer⟩ := makeMove_ok_spec g col hok
    obtain ⟨hfr1, hfr2⟩ := findRow_some_spec g.Board ⟨col.toNat, h7⟩ row hfind
    constructor
    · have hv : g.CurrentPlayer ≠ EmptyCell := by
        rcases ih.2 with h | h <;> rw [h] <;> decide
      rw [hboard]
      exact noFloating_setCell g.Board row ⟨col.toNat, h7⟩ g.CurrentPlayer ih.1 hv hfr2
    · rcases hplayer with ⟨hcp, _⟩ | ⟨hcp, _⟩
      · rw [hcp]; exact ih.2
      · rw [hcp]
        rcases ih.2 with h | h <;> rw [h] <;> decide

/-! ## Concrete test fixtures -/

/-- A board literal: list of rows from top (row 0) to bottom (row 5),
missing entries default to empty. -/
def boardOfRows (rows : List (List Int)) : Board :=
  fun r c => (rows.getD r.val []).getD c.val 0

/-- A freshly created two-player game. -/
def freshGame : Game := NewGame "game1" "id1" "alice" "id2" "bob" false

/-- A game whose column 0 is completely full (no 4-in-a-row in it). -/
def gColFull : Game :=
  { freshGame with
    Board := boardOfRows [[2], [1], [2], [1], [2], [1]] }

/-- The other-player function (Go computes it with the same conditional
both at the top of Bot.GetMove and in the turn switch of MakeMove). -/
def oppOf (p : Int) : Int := if p = Player1 then Player2 else Player1

/-! ## Claim theorems: board engine -/

/-- C1: MakeMove(c) fails exactly when c is out of range (c < 0 or
c >= 7) or the top cell of column c is occupied (given the gravity
invariant, which holds in every reachable state), and a failing call
leaves the game — board, history, mover, terminal flags — unchanged. -/
theorem claim1_makeMove_fail_iff (g : Game) (col : Int) (hinv : NoFloating g.Board) :
    ((MakeMove g col).2.2 = false ↔
      col < 0 ∨ 7 ≤ col ∨ ∃ h7 : col.toNat < 7, g.Board 0 ⟨col.toNat, h7⟩ ≠ EmptyCell)
    ∧ ((MakeMove g col).2.2 = false → (MakeMove g col).1 = g) := by
  constructor
  · rw [makeMove_fail_char]
    constructor
    · rintro (h | ⟨h7, hnone⟩)
      · rcases h with h | h
        · exact Or.inl h
        · exact Or.inr (Or.inl h)
      · exact Or.inr (Or.inr ⟨h7, (findRow_none_iff g.Board ⟨col.toNat, h7⟩).mp hnone 0⟩)
    · rintro (h | h | ⟨h7, htop⟩)
      · exact Or.inl (Or.inl h)
      · exact Or.inl (Or.inr h)
      · refine Or.inr ⟨h7, ?_⟩
        rw [findRow_none_iff]
        intro r
        exact hinv ⟨col.toNat, h7⟩ 0 r (Nat.zero_le _) htop
  · intro hf
    exact (makeMove_fail_eq g col hf).1

/-- Witness for C1 at a game with a full column 0: the invariant holds,
the move on column 0 fails, and the game is unchanged. -/
theorem claim1_witness :
    NoFloating gColFull.Board ∧
    (MakeMove gColFull 0).2.2 = false ∧ (MakeMove gColFull 0).1 = gColFull := by
  refine ⟨by decide, ?_⟩
  have h := claim1_makeMove_fail_iff gColFull 0 (by decide)
  have hfail : (MakeMove gColFull 0).2.2 = false :=
    h.1.mpr (Or.inr (Or.inr ⟨by decide, by decide⟩))
  exact ⟨hfail, h.2 hfail⟩

/-- C2: in every state reachable by successful moves the board has no
floating discs (cells above the topmost disc of a column are empty),
and an occupied cell is never overwritten by a further MakeMove. -/
theorem claim2_board_invariant (g : Game) (h : Reachable g) :
    NoFloating g.Board ∧
    ∀ (col : Int) (r : Fin 6) (c : Fin 7), g.Board r c ≠ EmptyCell →
      (MakeMove g col).1.Board r c = g.Board r c :=
  ⟨(reachable_invariant g h).1,
   fun col r c h1 => makeMove_keeps_filled g col r c h1⟩

/-- Witness for C2 at the reachable state after one move in column 3. -/
theorem claim2_witness :
    NoFloating (MakeMove (NewGame "game1" "id1" "alice" "id2" "bob" false) 3).1.Board :=
  (claim2_board_invariant _
    (Reachable.step _ 3 (Reachable.base "game1" "id1" "alice" "id2" "bob" false)
      (by decide))).1

/-- C4 counterexample: on a winning move, MakeMove succeeds but does NOT
switch the current mover — after player 1 completes four in a row in
column 0 the current player is still Player1, refuting the claim that
every successful MakeMove switches the turn. -/
theorem claim4_cex_no_switch_on_win :
    (MakeMove (playMoves freshGame [0, 1, 0, 1, 0, 1]) 0).2.2 = true ∧
    (playMoves freshGame [0, 1, 0, 1, 0, 1]).CurrentPlayer = Player1 ∧
    (MakeMove (playMoves freshGame [0, 1, 0, 1, 0, 1]) 0).1.Winner = Player1 ∧
    (MakeMove (playMoves freshGame [0, 1, 0, 1, 0, 1]) 0).1.CurrentPlayer = Player1 := by
  decide

/-- C4 (amended): a successful MakeMove from a non-terminal state places
the mover's disc at the lowest empty row of the column, appends exactly
one move record, and switches the current mover — unless the move ends
the game (win or draw), in which case the mover indicator is left
unchanged. -/
theorem claim4_switch_unless_terminal (g : Game) (col : Int)
    (hok : (MakeMove g col).2.2 = true) (hpre : g.IsOver = false) :
    ∃ (h7 : col.toNat < 7) (row : Fin 6),
      g.Board row ⟨col.toNat, h7⟩ = EmptyCell ∧
      (∀ x : Fin 6, row.val < x.val → g.Board x ⟨col.toNat, h7⟩ ≠ EmptyCell) ∧
      (MakeMove g col).1.Board = setCell g.Board row ⟨col.toNat, h7⟩ g.CurrentPlayer ∧
      (MakeMove g col).1.Moves =
        g.Moves ++ [{ Player := g.CurrentPlayer, Column := col, Row := (row.val : Int) }] ∧
      ((MakeMove g col).1.IsOver = false →
        (MakeMove g col).1.CurrentPlayer = oppOf g.CurrentPlayer) ∧
      ((MakeMove g col).1.IsOver = true →
        (MakeMove g col).1.CurrentPlayer = g.CurrentPlayer) := by
  obtain ⟨h7, row, _, _, hfind, _, hboard, hmoves, hplayer⟩ := makeMove_ok_spec g col hok
  obtain ⟨hfr1, hfr2⟩ := findRow_some_spec g.Board ⟨col.toNat, h7⟩ row hfind
  refine ⟨h7, row, hfr1, hfr2, hboard, hmoves, ?_, ?_⟩
  · intro hnov
    rcases hplayer with ⟨_, hov⟩ | ⟨hcp, _⟩
    · rw [hov] at hnov; cases hnov
    · exact hcp
  · intro hov
    rcases hplayer with ⟨hcp, _⟩ | ⟨_, hov2⟩
    · exact hcp
    · rw [hov, hpre] at hov2; cases hov2

/-- Witness for the amended C4: the first move of a fresh game hands the
turn to player 2. -/
theorem claim4_witness :
    (MakeMove (NewGame "game1" "id1" "alice" "id2" "bob" false) 3).1.CurrentPlayer = Player2 := by
  obtain ⟨h7, row, _, _, _, _, hswitch, _⟩ :=
    claim4_switch_unless_terminal (NewGame "game1" "id1" "alice" "id2" "bob" false) 3
      (by decide) rfl
  have hov : (MakeMove (NewGame "game1" "id1" "alice" "id2" "bob" false) 3).1.IsOver = false := by
    decide
  rw [hswitch hov]; decide

/-! ## C3: terminal evaluation order -/

/-- CheckWin with machine-integer coordinates, the just-played cell
taken from the MakeMove return value; out-of-range coordinates (which
cannot occur after a successful move) yield false. -/
def cellWin (gm : Game) (r c : Int) : Bool :=
  if h : 0 ≤ r ∧ r < 6 ∧ 0 ≤ c ∧ c < 7 then
    CheckWin gm ⟨r.toNat, by omega⟩ ⟨c.toNat, by omega⟩
  else false

lemma checkWin_congr {g1 g2 : Game} (h : g1.Board = g2.Board) (r : Fin 6) (c : Fin 7) :
    CheckWin g1 r c = CheckWin g2 r c := by
  unfold CheckWin; rw [h]

lemma isBoardFull_congr {g1 g2 : Game} (h : g1.Board = g2.Board) :
    IsBoardFull g1 = IsBoardFull g2 := by
  unfold IsBoardFull; rw [h]

lemma cellWin_eq_checkWin (gm : Game) (row : Fin 6) (cf : Fin 7) (c : Int)
    (hcf : (cf.val : Int) = c) :
    cellWin gm (row.val : Int) c = CheckWin gm row cf := by
  obtain ⟨rv, hrv⟩ := row
  obtain ⟨cv, hcv⟩ := cf
  simp only [Fin.val_mk] at hcf ⊢
  subst hcf
  unfold cellWin
  rw [dif_pos ⟨by omega, by omega, by omega, by omega⟩]
  rfl

/-- The C3 content, stated on the bounds-checked body of MakeMove. -/
lemma makeMoveIn_win_draw (g : Game) (col : Int) (cf : Fin 7)
    (hcf : (cf.val : Int) = col) (hD : g.IsDraw = false) (hW : g.Winner = 0) :
    (MakeMoveIn g col cf).2.2 = true →
    (cellWin (MakeMoveIn g col cf).1 (MakeMoveIn g col cf).2.1 col = true →
      (MakeMoveIn g col cf).1.Winner = g.CurrentPlayer ∧
      (MakeMoveIn g col cf).1.IsOver = true ∧
      (MakeMoveIn g col cf).1.IsDraw = false) ∧
    (cellWin (MakeMoveIn g col cf).1 (MakeMoveIn g col cf).2.1 col = false →
      IsBoardFull (MakeMoveIn g col cf).1 = true →
      (MakeMoveIn g col cf).1.IsDraw = true ∧
      (MakeMoveIn g col cf).1.IsOver = true ∧
      (MakeMoveIn g col cf).1.Winner = 0) := by
  unfold MakeMoveIn
  split
  next hfr => intro h; simp at h
  next row hfr =>
    intro _
    split
    next hwin =>
      constructor
      · intro _
        exact ⟨rfl, rfl, hD⟩
      · intro hcw _
        have hcw2 : cellWin (placeDisc g row cf col) (row.val : Int) col = false := hcw
        rw [cellWin_eq_checkWin _ row cf col hcf] at hcw2
        exact (Bool.false_ne_true (hcw2.symm.trans hwin)).elim
    next hwin =>
      split
      next hfull =>
        constructor
        · intro hcw
          have hcw2 : cellWin (placeDisc g row cf col) (row.val : Int) col = true := hcw
          rw [cellWin_eq_checkWin _ row cf col hcf] at hcw2
          exact absurd hcw2 hwin
        · intro _ _
          exact ⟨rfl, rfl, hW⟩
      next hfull =>
        constructor
        · intro hcw
          have hcw2 : cellWin (placeDisc g row cf col) (row.val : Int) col = true := hcw
          rw [cellWin_eq_checkWin _ row cf col hcf] at hcw2
          exact absurd hcw2 hwin
        · intro _ hfull2
          have hfull3 : IsBoardFull (placeDisc g row cf col) = true := hfull2
          exact absurd hfull3 hfull

/-- C3: after a successful move from a non-terminal state, the win
check runs before the full-board check — if the just-played cell
completes a 4-in-a-row the mover is recorded as winner with IsOver set
and IsDraw still false (even if the board is now full), and if it does
not while the board became full the game is a draw with no winner. -/
theorem claim3_win_before_draw (g : Game) (col : Int)
    (hok : (MakeMove g col).2.2 = true) (hD : g.IsDraw = false) (hW : g.Winner = 0) :
    (cellWin (MakeMove g col).1 (MakeMove g col).2.1 col = true →
      (MakeMove g col).1.Winner = g.CurrentPlayer ∧
      (MakeMove g col).1.IsOver = true ∧
      (MakeMove g col).1.IsDraw = false) ∧
    (cellWin (MakeMove g col).1 (MakeMove g col).2.1 col = false →
      IsBoardFull (MakeMove g col).1 = true →
      (MakeMove g col).1.IsDraw = true ∧
      (MakeMove g col).1.IsOver = true ∧
      (MakeMove g col).1.Winner = 0) := by
  revert hok
  unfold MakeMove
  split
  next hcond => intro h; simp at h
  next hcond =>
    exact makeMoveIn_win_draw g col _ (by show ((col.toNat : Nat) : Int) = col; omega) hD hW

/-- A game where player 1 has three discs on the bottom row. -/
def gThreeP1 : Game :=
  { freshGame with Board := boardOfRows [[], [], [], [], [], [1, 1, 1]] }

def drawRowA : List Int := [1, 2, 1, 2, 1, 2, 1]

def drawRowB : List Int := [2, 1, 2, 1, 2, 1, 2]

/-- A full board minus the top-right cell, arranged so that no line of
four equal discs exists anywhere; the next move fills the board. -/
def gDrawPre : Game :=
  { freshGame with
    Board := boardOfRows
      [[1, 2, 1, 2, 1, 2, 0], drawRowA, drawRowB, drawRowB, drawRowA, drawRowA] }

/-- Witness for C3: a winning completion is recorded as a win, and a
board-filling non-winning move is recorded as a draw with no winner. -/
theorem claim3_witness :
    ((MakeMove gThreeP1 3).1.Winner = Player1 ∧ (MakeMove gThreeP1 3).1.IsOver = true ∧
      (MakeMove gThreeP1 3).1.IsDraw = false) ∧
    ((MakeMove gDrawPre 6).1.IsDraw = true ∧ (MakeMove gDrawPre 6).1.IsOver = true ∧
      (MakeMove gDrawPre 6).1.Winner = 0) :=
  ⟨(claim3_win_before_draw gThreeP1 3 (by decide) rfl rfl).1 (by decide),
   (claim3_win_before_draw gDrawPre 6 (by decide) rfl rfl).2 (by decide) (by decide)⟩

/-! ## C5: Clone is a deep copy

The Go Moves field is a slice, i.e. a reference into a backing array,
so deep versus shallow copying is observable only when that indirection
is modelled.  A Store holds the backing arrays of all live move lists,
indexed by allocation order; an HGame is the Game struct with its Moves
slice replaced by a store reference.  Clone allocates a fresh entry
holding a copy of the source list (Go: make + copy); MakeMove writes
the appended list back through the reference it was given. -/

abbrev Store := List (List Move)

/-- The Game struct with the Moves slice as a store reference. -/
structure HGame where
  ID : String
  Board : Board
  CurrentPlayer : Int
  Player1ID : String
  Player2ID : String
  Player1Name : String
  Player2Name : String
  IsBot : Bool
  Winner : Int
  IsOver : Bool
  IsDraw : Bool
  movesRef : Nat
  StartTime : Int
  EndTime : Int

/-- The observable game behind a store-based game: every scalar field
plus the move list read through the reference. -/
def gameOf (σ : Store) (g : HGame) : Game :=
  { ID := g.ID
    Board := g.Board
    CurrentPlayer := g.CurrentPlayer
    Player1ID := g.Player1ID
    Player2ID := g.Player2ID
    Player1Name := g.Player1Name
    Player2Name := g.Player2Name
    IsBot := g.IsBot
    Winner := g.Winner
    IsOver := g.IsOver
    IsDraw := g.IsDraw
    Moves := σ.getD g.movesRef []
    StartTime := g.StartTime
    EndTime := g.EndTime }

/-- Repackaging a plain game as a store-based game over a given
reference. -/
def hOf (gm : Game) (ref : Nat) : HGame :=
  { ID := gm.ID
    Board := gm.Board
    CurrentPlayer := gm.CurrentPlayer
    Player1ID := gm.Player1ID
    Player2ID := gm.Player2ID
    Player1Name := gm.Player1Name
    Player2Name := gm.Player2Name
    IsBot := gm.IsBot
    Winner := gm.Winner
    IsOver := gm.IsOver
    IsDraw := gm.IsDraw
    movesRef := ref
    StartTime := gm.StartTime
    EndTime := gm.EndTime }

/-- MakeMove on the store-based representation: the pure MakeMove runs
on the observable game and the new move list is written back through
the game's own reference. -/
def HMakeMove (σ : Store) (g : HGame) (col : Int) : Store × HGame × Int × Bool :=
  (σ.set g.movesRef (MakeMove (gameOf σ g) col).1.Moves,
   hOf (MakeMove (gameOf σ g) col).1 g.movesRef,
   (MakeMove (gameOf σ g) col).2.1,
   (MakeMove (gameOf σ g) col).2.2)

/-- Go: Game.Clone — copies every scalar field and board cell and
allocates a fresh backing array holding a copy of the move list. -/
def HClone (σ : Store) (g : HGame) : Store × HGame :=
  (σ ++ [σ.getD g.movesRef []], { g with movesRef := σ.length })

/-- Running a sequence of MakeMove calls on a store-based game. -/
def playMovesH (σ : Store) (g : HGame) : List Int → Store × HGame
  | [] => (σ, g)
  | col :: rest => playMovesH (HMakeMove σ g col).1 (HMakeMove σ g col).2.1 rest

lemma getD_set_ne (σ : Store) (i j : Nat) (v : List Move) (h : i ≠ j) :
    (σ.set i v).getD j [] = σ.getD j [] := by
  rw [List.getD_eq_getElem?_getD, List.getD_eq_getElem?_getD, List.getElem?_set_ne h]

/-- Moves played through one reference never change the list behind a
different reference, and never change which reference the moving game
holds. -/
lemma playMovesH_frame (ref : Nat) :
    ∀ (cols : List Int) (σc : Store) (gc : HGame), gc.movesRef ≠ ref →
      (playMovesH σc gc cols).1.getD ref [] = σc.getD ref [] ∧
      (playMovesH σc gc cols).2.movesRef = gc.movesRef := by
  intro cols
  induction cols with
  | nil => intro σc gc _; exact ⟨rfl, rfl⟩
  | cons col rest ih =>
    intro σc gc h
    have hstep := ih (HMakeMove σc gc col).1 (HMakeMove σc gc col).2.1 h
    refine ⟨?_, ?_⟩
    · show (playMovesH (HMakeMove σc gc col).1 (HMakeMove σc gc col).2.1 rest).1.getD ref [] =
        σc.getD ref []
      rw [hstep.1]
      exact getD_set_ne σc gc.movesRef ref _ h
    · show (playMovesH (HMakeMove σc gc col).1 (HMakeMove σc gc col).2.1 rest).2.movesRef =
        gc.movesRef
      rw [hstep.2]
      rfl

/-- C5: Clone yields a game observably equal to the original (same
board, move history, turn and terminal flags) behind a freshly
allocated move list, and after any sequence of MakeMove calls applied
to the clone every observable of the original — in particular its
GetValidMoves output — is unchanged. -/
theorem claim5_clone_deep_copy (σ : Store) (g : HGame) (cols : List Int)
    (href : g.movesRef < σ.length) :
    gameOf (HClone σ g).1 (HClone σ g).2 = gameOf σ g ∧
    (HClone σ g).2.movesRef ≠ g.movesRef ∧
    gameOf (playMovesH (HClone σ g).1 (HClone σ g).2 cols).1 g = gameOf σ g ∧
    GetValidMoves (gameOf (playMovesH (HClone σ g).1 (HClone σ g).2 cols).1 g) =
      GetValidMoves (gameOf σ g) := by
  have hne : ((HClone σ g).2).movesRef ≠ g.movesRef := by
    show σ.length ≠ g.movesRef
    omega
  have hframe := playMovesH_frame g.movesRef cols (HClone σ g).1 (HClone σ g).2 hne
  have h3 : gameOf (playMovesH (HClone σ g).1 (HClone σ g).2 cols).1 g = gameOf σ g := by
    unfold gameOf
    congr 1
    rw [hframe.1]
    show (σ ++ [σ.getD g.movesRef []]).getD g.movesRef [] = σ.getD g.movesRef []
    exact List.getD_append _ _ _ _ href
  refine ⟨?_, hne, h3, by rw [h3]⟩
  unfold gameOf
  congr 1
  show (σ ++ [σ.getD g.movesRef []]).getD σ.length [] = σ.getD g.movesRef []
  rw [List.getD_append_right _ _ _ _ (Nat.le_refl _), Nat.sub_self]
  rfl

/-- The store-based game used by the C5 witness. -/
def hFresh : HGame := hOf freshGame 0

/-- Witness for C5: a concrete store with one live game, cloned and
then played on for two moves, leaves the original game observably
unchanged. -/
theorem claim5_witness :
    (0 : Nat) < ([[]] : Store).length ∧
    gameOf (playMovesH (HClone [[]] hFresh).1 (HClone [[]] hFresh).2 [3, 3]).1 hFresh =
      gameOf [[]] hFresh :=
  ⟨by decide, (claim5_clone_deep_copy [[]] hFresh [3, 3] (by decide)).2.2.1⟩

/-! ## Search agent (package bot) -/

/-- Constants from the bot package. -/
def MaxDepth : Nat := 6

def WinScore : Int := 100000

def BlockScore : Int := 90000

def ThreeScore : Int := 100

def TwoScore : Int := 10

def CenterBonus : Int := 3

/-- Go math.MinInt32 / math.MaxInt32 (the Go ints are 64-bit, so no
arithmetic in the search ever overflows; plain integers are faithful). -/
def minInt32 : Int := -2147483648

def maxInt32 : Int := 2147483647

structure Bot where
  Player : Int

/-- Go helper abs from the bot package. -/
def intAbs (x : Int) : Int := if x < 0 then -x else x

/-- Board access with machine-integer indices; every call site of the
heuristic stays in range, where the Go code indexes the array directly,
and an out-of-range access yields the empty value. -/
def getCell (b : Board) (r c : Int) : Int :=
  if h : 0 ≤ r ∧ r < 6 ∧ 0 ≤ c ∧ c < 7 then b ⟨r.toNat, by omega⟩ ⟨c.toNat, by omega⟩
  else EmptyCell

/-- Go: Bot.evaluateWindow — counts the discs of each side and the
empty cells in a 4-cell window and scores it. -/
def evaluateWindow (b : Bot) (g : Game) (startRow startCol rowDir colDir : Int)
    (opponent : Int) : Int :=
  let cells := (List.range 4).map (fun i =>
    getCell g.Board (startRow + (i : Int) * rowDir) (startCol + (i : Int) * colDir))
  let botCount := (cells.filter (fun v => v == b.Player)).length
  let oppCount := (cells.filter (fun v => v == opponent)).length
  let emptyCount := (cells.filter (fun v => !(v == b.Player) && !(v == opponent))).length
  if botCount > 0 ∧ oppCount > 0 then 0
  else if botCount = 3 ∧ emptyCount = 1 then ThreeScore
  else if botCount = 2 ∧ emptyCount = 2 then TwoScore
  else if oppCount = 3 ∧ emptyCount = 1 then -ThreeScore * 2
  else if oppCount = 2 ∧ emptyCount = 2 then -TwoScore
  else 0

/-- Go: Bot.evaluateLines — the window scan over the four directions
(horizontal, vertical, the two diagonals). -/
def evaluateLines (b : Bot) (g : Game) (opponent : Int) : Int :=
  (((List.range 6).map (fun r => ((List.range 4).map (fun c =>
      evaluateWindow b g (r : Int) (c : Int) 0 1 opponent)).sum)).sum) +
  (((List.range 7).map (fun c => ((List.range 3).map (fun r =>
      evaluateWindow b g (r : Int) (c : Int) 1 0 opponent)).sum)).sum) +
  (((List.range 3).map (fun r => ((List.range 4).map (fun c =>
      evaluateWindow b g (r : Int) (c : Int) 1 1 opponent)).sum)).sum) +
  (((List.range 3).map (fun r => ((List.range 4).map (fun c =>
      evaluateWindow b g (r : Int) ((c : Int) + 3) 1 (-1) opponent)).sum)).sum)

/-- Go: Bot.evaluate — won/lost/drawn positions get fixed values, other
positions a center-column bonus per disc plus the line scan. -/
def evaluate (b : Bot) (g : Game) (opponent : Int) : Int :=
  if g.Winner = b.Player then WinScore
  else if g.Winner = opponent then -WinScore
  else if g.IsDraw then 0
  else
    (((List.finRange 7).map (fun c => ((List.finRange 6).map (fun r =>
        if g.Board r c = b.Player then CenterBonus - intAbs ((c.val : Int) - 3)
        else if g.Board r c = opponent then -(CenterBonus - intAbs ((c.val : Int) - 3))
        else 0)).sum)).sum) +
    evaluateLines b g opponent

/-- The maximizing loop of Bot.minimax with alpha-beta cutoff; the
recursion into the next ply is abstracted as recurse. -/
def maxLoop (b : Bot) (g : Game) (recurse : Game → Int → Int → Int) :
    List Int → Int → Int → Int → Int
  | [], _, _, maxScore => maxScore
  | col :: rest, alpha, beta, maxScore =>
    let res := MakeMove { Clone g with CurrentPlayer := b.Player } col
    if res.2.2 = false then maxLoop b g recurse rest alpha beta maxScore
    else
      let score := recurse res.1 alpha beta
      let maxScore2 := max maxScore score
      let alpha2 := max alpha score
      if beta ≤ alpha2 then maxScore2
      else maxLoop b g recurse rest alpha2 beta maxScore2

/-- The minimizing loop of Bot.minimax, where the opponent moves. -/
def minLoop (opponent : Int) (g : Game) (recurse : Game → Int → Int → Int) :
    List Int → Int → Int → Int → Int
  | [], _, _, minScore => minScore
  | col :: rest, alpha, beta, minScore =>
    let res := MakeMove { Clone g with CurrentPlayer := opponent } col
    if res.2.2 = false then minLoop opponent g recurse rest alpha beta minScore
    else
      let score := recurse res.1 alpha beta
      let minScore2 := min minScore score
      let beta2 := min beta score
      if beta2 ≤ alpha then minScore2
      else minLoop opponent g recurse rest alpha beta2 minScore2

/-- Go: Bot.minimax — depth-bounded alpha-beta search, recursion on the
remaining depth. -/
def minimax (b : Bot) (g : Game) (depth : Nat) (alpha beta : Int)
    (isMaximizing : Bool) (opponent : Int) : Int :=
  match depth with
  | 0 => evaluate b g opponent
  | d + 1 =>
    if g.IsOver then evaluate b g opponent
    else if (GetValidMoves g).length = 0 then 0
    else if isMaximizing then
      maxLoop b g (fun g2 a bt => minimax b g2 d a bt false opponent)
        (GetValidMoves g) alpha beta minInt32
    else
      minLoop opponent g (fun g2 a bt => minimax b g2 d a bt true opponent)
        (GetValidMoves g) alpha beta maxInt32

/-- One immediate-win simulation of Bot.GetMove: clone, force the given
mover, play the column, test validity and victory. -/
def simWins (p : Int) (g : Game) (col : Int) : Bool :=
  let res := MakeMove { Clone g with CurrentPlayer := p } col
  res.2.2 && (res.1.Winner == p)

/-- The two scanning loops at the top of Bot.GetMove, returning the
first column whose simulation wins for the given player. -/
def findWinningMove (p : Int) (g : Game) : List Int → Option Int
  | [] => none
  | col :: rest => if simWins p g col then some col else findWinningMove p g rest

/-- The minimax loop of Bot.GetMove accumulating the best score and the
list of columns achieving it. -/
def collectBest (b : Bot) (opponent : Int) (g : Game) :
    List Int → Int → List Int → Int × List Int
  | [], bestScore, bestMoves => (bestScore, bestMoves)
  | col :: rest, bestScore, bestMoves =>
    let res := MakeMove { Clone g with CurrentPlayer := b.Player } col
    if res.2.2 = false then collectBest b opponent g rest bestScore bestMoves
    else
      let score := minimax b res.1 (MaxDepth - 1) minInt32 maxInt32 false opponent
      if score > bestScore then collectBest b opponent g rest score [col]
      else if score = bestScore then collectBest b opponent g rest bestScore (bestMoves ++ [col])
      else collectBest b opponent g rest bestScore bestMoves

/-- The center-weighted tie-break pool: the center column three times,
its neighbours twice, the rest once. -/
def buildCenterPref : List Int → List Int
  | [] => []
  | col :: rest =>
    (if col = 3 then [col, col, col]
     else if col = 2 ∨ col = 4 then [col, col]
     else [col]) ++ buildCenterPref rest

/-- Go: Bot.GetMove.  rand.Intn n is modelled by rnd % n for an
arbitrary rnd, so theorems below hold for every random draw. -/
def GetMove (b : Bot) (g : Game) (rnd : Nat) : Int :=
  match findWinningMove b.Player g (GetValidMoves g) with
  | some col => col
  | none =>
    match findWinningMove (oppOf b.Player) g (GetValidMoves g) with
    | some col => col
    | none =>
      match collectBest b (oppOf b.Player) g (GetValidMoves g) minInt32 [] with
      | (_, bestMoves) =>
        if bestMoves.length = 0 then
          if (GetValidMoves g).length > 0 then
            (GetValidMoves g).getD (rnd % (GetValidMoves g).length) 0
          else 3
        else
          (buildCenterPref bestMoves).getD (rnd % (buildCenterPref bestMoves).length) 0

/-! ## Lemmas about the bot loops -/

lemma findWinningMove_eq_find? (p : Int) (g : Game) :
    ∀ l : List Int, findWinningMove p g l = l.find? (simWins p g) := by
  intro l
  induction l with
  | nil => rfl
  | cons a rest ih =>
    by_cases h : simWins p g a = true
    · simp [findWinningMove, List.find?, h]
    · simp only [Bool.not_eq_true] at h
      simp [findWinningMove, List.find?, h, ih]

lemma findWinningMove_mem (p : Int) (g : Game) :
    ∀ (l : List Int) (col : Int), findWinningMove p g l = some col → col ∈ l := by
  intro l
  induction l with
  | nil => intro col h; cases h
  | cons a rest ih =>
    intro col h
    rw [findWinningMove] at h
    split at h
    · injection h with h
      subst h
      exact List.mem_cons_self _ _
    · exact List.mem_cons_of_mem _ (ih col h)

lemma getValidMoves_pairwise (g : Game) : List.Pairwise (· < ·) (GetValidMoves g) := by
  unfold GetValidMoves
  have hbase : List.Pairwise (fun a b : Fin 7 => a < b)
      ((List.finRange 7).filter (fun c => g.Board 0 c == EmptyCell)) :=
    List.Pairwise.sublist (List.filter_sublist _) (by decide)
  refine List.Pairwise.map _ ?_ hbase
  intro a b hab
  have hv := Fin.lt_def.mp hab
  exact_mod_cast hv

lemma collectBest_subset (b : Bot) (opponent : Int) (g : Game) :
    ∀ (l : List Int) (bs : Int) (init : List Int) (x : Int),
      x ∈ (collectBest b opponent g l bs init).2 → x ∈ init ∨ x ∈ l := by
  intro l
  induction l with
  | nil => intro bs init x hx; exact Or.inl hx
  | cons col rest ih =>
    intro bs init x hx
    simp only [collectBest] at hx
    split at hx
    · rcases ih _ _ x hx with h | h
      · exact Or.inl h
      · exact Or.inr (List.mem_cons_of_mem _ h)
    · split at hx
      · rcases ih _ _ x hx with h | h
        · simp only [List.mem_singleton] at h
          subst h
          exact Or.inr (List.mem_cons_self _ _)
        · exact Or.inr (List.mem_cons_of_mem _ h)
      · split at hx
        · rcases ih _ _ x hx with h | h
          · rcases List.mem_append.mp h with h | h
            · exact Or.inl h
            · simp only [List.mem_singleton] at h
              subst h
              exact Or.inr (List.mem_cons_self _ _)
          · exact Or.inr (List.mem_cons_of_mem _ h)
        · rcases ih _ _ x hx with h | h
          · exact Or.inl h
          · exact Or.inr (List.mem_cons_of_mem _ h)

lemma buildCenterPref_mem : ∀ (l : List Int) (x : Int), x ∈ buildCenterPref l → x ∈ l := by
  intro l
  induction l with
  | nil => intro x hx; exact absurd hx (List.not_mem_nil x)
  | cons col rest ih =>
    intro x hx
    rw [buildCenterPref] at hx
    rcases List.mem_append.mp hx with h | h
    · have hx2 : x = col := by
        split at h
        · simpa using h
        · split at h
          · simpa using h
          · simpa using h
      rw [hx2]
      exact List.mem_cons_self _ _
    · exact List.mem_cons_of_mem _ (ih x h)

lemma buildCenterPref_ne_nil : ∀ l : List Int, l ≠ [] → buildCenterPref l ≠ [] := by
  intro l
  cases l with
  | nil => intro h; exact absurd rfl h
  | cons col rest =>
    intro _
    rw [buildCenterPref]
    split
    · simp
    · split <;> simp

lemma getD_mod_mem (l : List Int) (h : l ≠ []) (n : Nat) (d : Int) :
    l.getD (n % l.length) d ∈ l := by
  have hlen : 0 < l.length := List.length_pos.mpr h
  have hlt : n % l.length < l.length := Nat.mod_lt _ hlen
  rw [List.getD_eq_getElem _ _ hlt]
  exact List.getElem_mem hlt

/-! ## Claim theorems: search agent -/

/-- C6: GetMove obeys the strict priority immediate-win over
immediate-block: the candidate list is scanned in ascending column
order (it is sorted), a first winning simulation for the bot is
returned directly, and failing that a first winning simulation for the
opponent is returned — both regardless of the random draw and of any
minimax score. -/
theorem claim6_bot_priority (b : Bot) (g : Game) (rnd : Nat) :
    List.Pairwise (· < ·) (GetValidMoves g) ∧
    (∀ c : Int, (GetValidMoves g).find? (simWins b.Player g) = some c →
      GetMove b g rnd = c) ∧
    ((GetValidMoves g).find? (simWins b.Player g) = none →
      ∀ c : Int, (GetValidMoves g).find? (simWins (oppOf b.Player) g) = some c →
        GetMove b g rnd = c) := by
  refine ⟨getValidMoves_pairwise g, ?_, ?_⟩
  · intro c h
    unfold GetMove
    rw [findWinningMove_eq_find?, h]
  · intro hn c h
    unfold GetMove
    rw [findWinningMove_eq_find?, hn, findWinningMove_eq_find?, h]

/-- A game where the bot (player 2) has three discs on the bottom row:
column 3 completes four in a row. -/
def gThreeP2 : Game :=
  { freshGame with Board := boardOfRows [[], [], [], [], [], [2, 2, 2]] }

/-- Witness for C6: the bot plays its own completion at column 3, and
blocks the opponent's completion at column 3. -/
theorem claim6_witness :
    GetMove { Player := 2 } gThreeP2 0 = 3 ∧ GetMove { Player := 2 } gThreeP1 5 = 3 :=
  ⟨(claim6_bot_priority { Player := 2 } gThreeP2 0).2.1 3 (by decide),
   (claim6_bot_priority { Player := 2 } gThreeP1 5).2.2 (by decide) 3 (by decide)⟩

/-- C10: whenever legal moves exist GetMove returns one of them, for
every random draw; on a full board it falls back to the center
column 3. -/
theorem claim10_getMove_valid (b : Bot) (g : Game) (rnd : Nat) :
    (GetValidMoves g ≠ [] → GetMove b g rnd ∈ GetValidMoves g) ∧
    (GetValidMoves g = [] → GetMove b g rnd = 3) := by
  constructor
  · intro hne
    unfold GetMove
    cases h1 : findWinningMove b.Player g (GetValidMoves g) with
    | some col =>
      simp only [h1]
      exact findWinningMove_mem _ _ _ _ h1
    | none =>
      cases h2 : findWinningMove (oppOf b.Player) g (GetValidMoves g) with
      | some col =>
        simp only [h1, h2]
        exact findWinningMove_mem _ _ _ _ h2
      | none =>
        simp only [h1, h2]
        cases h3 : collectBest b (oppOf b.Player) g (GetValidMoves g) minInt32 [] with
        | mk bs bestMoves =>
          simp only
          by_cases h4 : bestMoves.length = 0
          · rw [if_pos h4, if_pos (List.length_pos.mpr hne)]
            exact getD_mod_mem _ hne rnd 0
          · rw [if_neg h4]
            have hbne : bestMoves ≠ [] := fun he => h4 (by rw [he]; rfl)
            have hmem :=
              getD_mod_mem (buildCenterPref bestMoves) (buildCenterPref_ne_nil _ hbne) rnd 0
            have hin : (buildCenterPref bestMoves).getD
                (rnd % (buildCenterPref bestMoves).length) 0 ∈ bestMoves :=
              buildCenterPref_mem _ _ hmem
            have hx : (buildCenterPref bestMoves).getD
                (rnd % (buildCenterPref bestMoves).length) 0 ∈
                (collectBest b (oppOf b.Player) g (GetValidMoves g) minInt32 []).2 := by
              rw [h3]
              exact hin
            rcases collectBest_subset b (oppOf b.Player) g (GetValidMoves g) minInt32 [] _ hx
              with h | h
            · exact absurd h (List.not_mem_nil _)
            · exact h
  · intro he
    unfold GetMove
    simp only [he]
    rfl

/-- A completely full drawn board. -/
def gFullBoard : Game :=
  { freshGame with
    Board := boardOfRows [drawRowA, drawRowA, drawRowB, drawRowB, drawRowA, drawRowA] }

/-- Witness for C10: on a board with legal moves the chosen column is
legal, and on a full board the bot returns column 3. -/
theorem claim10_witness :
    GetMove { Player := 2 } gThreeP2 0 ∈ GetValidMoves gThreeP2 ∧
    GetMove { Player := 2 } gFullBoard 0 = 3 :=
  ⟨(claim10_getMove_valid { Player := 2 } gThreeP2 0).1 (by decide),
   (claim10_getMove_valid { Player := 2 } gFullBoard 0).2 (by decide)⟩

/-! ## Session hub and matchmaking bookkeeping

The hub state the remaining claims depend on is Hub.Games and
Hub.PlayerToGame (Go maps, modelled as association lists).  The
operations below mirror MatchMaker.startGame, Server.handleReconnect,
Server.handleMove and Server.endGame; broadcasts, timers, Kafka and
persistence calls are omitted because they never touch the registry or
the index, and Go's in-place mutation of the registered game during a
move is modelled by re-registering the updated game under its id. -/

/-- Go map assignment m[k] = v on an association list. -/
def mapSet {α : Type} : List (String × α) → String → α → List (String × α)
  | [], k, v => [(k, v)]
  | (k1, v1) :: rest, k, v =>
    if k1 = k then (k, v) :: rest else (k1, v1) :: mapSet rest k v

/-- Go map delete(m, k) on an association list. -/
def mapRemove {α : Type} (m : List (String × α)) (k : String) : List (String × α) :=
  m.filter (fun kv => !(kv.1 == k))

structure HubState where
  Games : List (String × Game)
  PlayerToGame : List (String × String)

def SetGame (s : HubState) (gameID : String) (g : Game) : HubState :=
  { s with Games := mapSet s.Games gameID g }

def GetGame (s : HubState) (gameID : String) : Option Game :=
  List.lookup gameID s.Games

def SetPlayerGame (s : HubState) (playerID gameID : String) : HubState :=
  { s with PlayerToGame := mapSet s.PlayerToGame playerID gameID }

def RemovePlayerGame (s : HubState) (playerID : String) : HubState :=
  { s with PlayerToGame := mapRemove s.PlayerToGame playerID }

/-- A connected client, as far as game creation is concerned. -/
structure ClientInfo where
  ID : String
  Username : String

/-- The game_start message fields the claims mention. -/
structure StartMsg where
  GameID : String
  Opponent : String
  YourTurn : Bool
  IsBot : Bool
  Player : Int

/-- Go: MatchMaker.startGame — shared by the two-player pairing path
(player2 present, isBot false) and the timeout bot-fallback path
(player2 absent, isBot true): builds the game, registers it, indexes
the session ids, and produces the game_start notifications (the second
one only for a human player 2). -/
def startGame (s : HubState) (gameID : String) (player1 : ClientInfo)
    (player2 : Option ClientInfo) (isBot : Bool) :
    HubState × Game × StartMsg × Option StartMsg :=
  let p2ID := match player2 with
    | some p2 => p2.ID
    | none => "bot-" ++ gameID
  let p2Name := match player2 with
    | some p2 => p2.Username
    | none => "Bot"
  let newGame := NewGame gameID player1.ID player1.Username p2ID p2Name isBot
  let s1 := SetGame s gameID newGame
  let s2 := SetPlayerGame s1 player1.ID gameID
  let s3 := match player2 with
    | some p2 => SetPlayerGame s2 p2.ID gameID
    | none => s2
  (s3, newGame,
   { GameID := gameID, Opponent := p2Name, YourTurn := true, IsBot := isBot,
     Player := Player1 },
   player2.map (fun _ =>
     { GameID := gameID, Opponent := player1.Username, YourTurn := false, IsBot := false,
       Player := Player2 }))

/-- Go: Server.endGame — clears the player-to-game index entry keyed by
the first player's session id, and the second player's only for a
non-bot game; nothing else is removed. -/
def endGame (s : HubState) (g : Game) : HubState :=
  let s1 := RemovePlayerGame s g.Player1ID
  if g.IsBot then s1 else RemovePlayerGame s1 g.Player2ID

/-- Go: Server.handleReconnect — on a live game naming the caller,
re-binds the new session id and the username to the game id. -/
def handleReconnect (s : HubState) (clientID username gameID : String) : HubState :=
  match GetGame s gameID with
  | none => s
  | some g =>
    if g.IsOver then s
    else if g.Player1Name ≠ username ∧ g.Player2Name ≠ username then s
    else SetPlayerGame (SetPlayerGame s clientID gameID) username gameID

/-- Go: Server.handleMove, restricted to its effect on the hub state —
applies the move to the registered game and, when the game becomes
terminal, runs endGame. -/
def handleMove (s : HubState) (gameID : String) (col : Int) : HubState :=
  match GetGame s gameID with
  | none => s
  | some g =>
    if g.IsOver then s
    else
      if (MakeMove g col).2.2 = false then s
      else
        let s1 := SetGame s gameID (MakeMove g col).1
        if (MakeMove g col).1.IsOver then endGame s1 (MakeMove g col).1 else s1

/-! ## Claim theorems: hub -/

/-- C9: on every game-creation path the new game's current mover is
Player1, the game_start sent to player 1 carries YourTurn = true, and
the one sent to a human player 2 carries YourTurn = false. -/
theorem claim9_player1_first (s : HubState) (gameID : String) (p1 : ClientInfo)
    (p2 : Option ClientInfo) (isBot : Bool) :
    (startGame s gameID p1 p2 isBot).2.1.CurrentPlayer = Player1 ∧
    (startGame s gameID p1 p2 isBot).2.2.1.YourTurn = true ∧
    (∀ m2 : StartMsg, (startGame s gameID p1 p2 isBot).2.2.2 = some m2 →
      m2.YourTurn = false) := by
  refine ⟨rfl, rfl, ?_⟩
  intro m2 h
  cases p2 with
  | none => cases h
  | some p2 =>
    injection h with h
    rw [← h]

/-- Witness for C9 on a concrete two-player pairing. -/
theorem claim9_witness :
    (startGame ⟨[], []⟩ "g1" ⟨"s1", "alice"⟩ (some ⟨"s2", "bob"⟩) false).2.1.CurrentPlayer =
      Player1 ∧
    ({ GameID := "g1", Opponent := "alice", YourTurn := false, IsBot := false,
       Player := Player2 } : StartMsg).YourTurn = false :=
  ⟨(claim9_player1_first ⟨[], []⟩ "g1" ⟨"s1", "alice"⟩ (some ⟨"s2", "bob"⟩) false).1,
   (claim9_player1_first ⟨[], []⟩ "g1" ⟨"s1", "alice"⟩ (some ⟨"s2", "bob"⟩) false).2.2 _ rfl⟩

/-- The C7 trace: alice and bob are paired, alice reconnects from a new
session (which adds the name-keyed index entry), and the game is then
played to a player-1 win, triggering endGame. -/
def hubTrace : HubState :=
  [0, 1, 0, 1, 0, 1, 0].foldl (fun s c => handleMove s "g1" c)
    (handleReconnect
      ((startGame ⟨[], []⟩ "g1" ⟨"s1", "alice"⟩ (some ⟨"s2", "bob"⟩) false).1)
      "s3" "alice" "g1")

/-- C7 is violated: after the game ends, endGame removed only the
session-id keys s1 and s2, while the name-keyed entry "alice" (added by
the reconnect path) still maps to the now-terminal game — an entry
exists for a player name although that player is in no non-terminal
game. -/
theorem claim7_stale_name_entry :
    List.lookup "alice" hubTrace.PlayerToGame = some "g1" ∧
    List.lookup "s3" hubTrace.PlayerToGame = some "g1" ∧
    List.lookup "s1" hubTrace.PlayerToGame = none ∧
    List.lookup "s2" hubTrace.PlayerToGame = none ∧
    (GetGame hubTrace "g1").map Game.IsOver = some true ∧
    (GetGame hubTrace "g1").map Game.Player1Name = some "alice" := by decide

/-- C8 counterexample: after four moves on column 3 the fifth move on
column 3 SUCCEEDS (landing in row 1, the column then holding five
discs) with no winner, refuting the claimed ok=false on the fifth
move. -/
theorem claim8_cex_fifth_succeeds :
    (MakeMove (playMoves freshGame [3, 3, 3, 3]) 3).2.2 = true ∧
    (MakeMove (playMoves freshGame [3, 3, 3, 3]) 3).2.1 = 1 ∧
    (MakeMove (playMoves freshGame [3, 3, 3, 3]) 3).1.Winner = 0 := by decide

/-- C8 (amended): the five stacked moves on column 3 all succeed with
alternating movers and no win; the column only fills after a sixth
move, and it is the seventh attempt on column 3 that fails. -/
theorem claim8_amended_trace :
    (playMoves freshGame [3, 3, 3, 3, 3]).Moves.map Move.Player = [1, 2, 1, 2, 1] ∧
    (playMoves freshGame [3, 3, 3, 3, 3]).Moves.map Move.Row = [5, 4, 3, 2, 1] ∧
    (playMoves freshGame [3, 3, 3, 3, 3]).Winner = 0 ∧
    (playMoves freshGame [3, 3, 3, 3, 3]).IsOver = false ∧
    (MakeMove (playMoves freshGame [3, 3, 3, 3, 3]) 3).2.2 = true ∧
    (MakeMove (playMoves freshGame [3, 3, 3, 3, 3, 3]) 3).2.2 = false ∧
    (playMoves freshGame [3, 3, 3, 3, 3, 3, 3]).Moves.map Move.Player =
      [1, 2, 1, 2, 1, 2] := by decide

end FourInARow
